import Mathlib

/-!
Verification of `InvenTree/views.py`: a shallow embedding of the module's
view classes (TreeSerializer, AjaxMixin and the Ajax CRUD views, QRCodeView,
IndexView) together with proofs of the specified properties.

External collaborators (the ORM, the template renderer, Django forms) are
modelled as explicit parameters: a database is a list of records, a form is a
value carrying its validation outcome and the object its `save()` returns,
and `render_to_string` is an arbitrary function argument.
-/

/-! ## Tree serializer (`TreeSerializer`)

A hierarchical record as stored by the ORM: an id, a display `name`, a
canonical URL (`get_absolute_url`), an optional parent reference and a
`stock_item_count`. -/

structure Record where
  id : Nat
  name : String
  url : String
  parent : Option Nat
  stock_item_count : Nat
deriving DecidableEq, Repr

/-- Structural lexicographic comparison of character lists (the database's
string collation, written so that it computes by kernel reduction). -/
def charListLe : List Char → List Char → Bool
  | [], _ => true
  | _ :: _, [] => false
  | a :: as, b :: bs =>
    if a < b then true else if a = b then charListLe as bs else false

/-- Lexicographic `≤` on strings, via their character data. -/
def strLe (a b : String) : Bool := charListLe a.data b.data

/-- Comparison used by `order_by(name)`: ascending lexicographic name order. -/
def byName (a b : Record) : Bool := strLe a.name b.name

instance byNameDecidable : DecidableRel (fun a b : Record => byName a b = true) :=
  fun a b => inferInstanceAs (Decidable (byName a b = true))

/-- `item.children.all().order_by(name)`: the records whose parent reference
is `item`, sorted ascending by name (a stable ascending sort models the
database ordering). -/
def children (db : List Record) (item : Record) : List Record :=
  (db.filter (fun r => r.parent = some item.id)).insertionSort
    (fun a b => byName a b = true)

/-- `item.has_children`: the item has at least one child record. -/
def has_children (db : List Record) (item : Record) : Bool :=
  decide (db.filter (fun r => r.parent = some item.id) ≠ [])

/-- The bootstrap-treeview wire node `{pk, text, href, tags, nodes?}`.
`pk = none` models JSON `null` (the synthetic root); `nodes = none` models the
key being absent, `nodes = some l` the key being present with list `l`. -/
inductive TreeNode where
  | mk : Option Nat → String → String → List Nat → Option (List TreeNode) → TreeNode
deriving Repr

def TreeNode.pk : TreeNode → Option Nat
  | .mk p _ _ _ _ => p

def TreeNode.text : TreeNode → String
  | .mk _ t _ _ _ => t

def TreeNode.href : TreeNode → String
  | .mk _ _ h _ _ => h

def TreeNode.tags : TreeNode → List Nat
  | .mk _ _ _ tg _ => tg

def TreeNode.nodes : TreeNode → Option (List TreeNode)
  | .mk _ _ _ _ n => n

/-! `TreeSerializer.itemToJson`, with a fuel parameter standing for the
recursion depth available; the Python recursion is unbounded and terminates
because the data layer keeps the hierarchy acyclic, which the fuelled version
reflects by returning `none` when the depth budget runs out.
`itemsToJsonWith f` is the `for child in ...` loop appending `f(child)`. -/

def itemsToJsonWith (f : Record → Option TreeNode) :
    List Record → Option (List TreeNode)
  | [] => some []
  | r :: rs =>
    match f r, itemsToJsonWith f rs with
    | some n, some ns => some (n :: ns)
    | _, _ => none

def itemToJson (db : List Record) : Nat → Record → Option TreeNode
  | 0 => fun _ => none
  | fuel + 1 => fun item =>
    if has_children db item then
      match itemsToJsonWith (itemToJson db fuel) (children db item) with
      | some nodes =>
          some (.mk (some item.id) item.name item.url [item.stock_item_count]
            (some nodes))
      | none => none
    else
      some (.mk (some item.id) item.name item.url [item.stock_item_count] none)

/-- The child loop at a given depth budget. -/
def itemsToJson (db : List Record) (fuel : Nat) (items : List Record) :
    Option (List TreeNode) :=
  itemsToJsonWith (itemToJson db fuel) items

/-- Per-subclass configuration of the tree endpoint: `self.title` and the
`root_url` override point (default implementation returns the anchor). -/
structure TreeSerializer where
  title : String
  root_url : String := "#"

/-- `TreeSerializer.get`: top-level records (null parent) ordered by name,
each serialized recursively; `top_count` accumulates their
`stock_item_count`; the response is `{tree: [top]}` with the synthetic
wrapper node. -/
def TreeSerializer.get (self : TreeSerializer) (fuel : Nat)
    (db : List Record) : Option (List (String × List TreeNode)) :=
  let top_items := (db.filter (fun r => r.parent = none)).insertionSort
    (fun a b => byName a b = true)
  match itemsToJson db fuel top_items with
  | none => none
  | some nodes =>
    let top_count := top_items.foldl (fun acc item => acc + item.stock_item_count) 0
    let top : TreeNode := .mk none self.title self.root_url [top_count] (some nodes)
    some [("tree", [top])]

/-! Sortedness checkers for the emitted tree. -/

/-- Ascending chain check on a list of strings. -/
def sortedStr : List String → Bool
  | [] => true
  | [_] => true
  | a :: b :: t => strLe a b && sortedStr (b :: t)

mutual

/-- Every `nodes` list in the tree, at every level, is ascending by `text`. -/
def siblingsSorted : TreeNode → Bool
  | .mk _ _ _ _ none => true
  | .mk _ _ _ _ (some ns) => sortedStr (ns.map TreeNode.text) && siblingsSortedList ns

def siblingsSortedList : List TreeNode → Bool
  | [] => true
  | n :: ns => siblingsSorted n && siblingsSortedList ns

end

/-- Concrete example database shared by the tree witnesses: two roots named
"b" and "a", the latter with children named "z" and "c". -/
def dbEx : List Record := [
  ⟨1, "b", "/1/", none, 2⟩,
  ⟨2, "a", "/2/", none, 3⟩,
  ⟨3, "z", "/3/", some 2, 5⟩,
  ⟨4, "c", "/4/", some 2, 1⟩]

/-- The record named "a" of `dbEx`. -/
def recA : Record := ⟨2, "a", "/2/", none, 3⟩

/-- The serialized node of `recA`: children sorted "c" before "z". -/
def nodeAEx : TreeNode :=
  .mk (some 2) "a" "/2/" [3]
    (some [TreeNode.mk (some 4) "c" "/4/" [1] none,
      TreeNode.mk (some 3) "z" "/3/" [5] none])

/-- The record named "b" of `dbEx` (childless). -/
def recB : Record := ⟨1, "b", "/1/", none, 2⟩

/-- The synthetic root emitted by `TreeSerializer.get` on `dbEx`. -/
def topEx : TreeNode :=
  .mk none "Parts" "#" [5]
    (some [nodeAEx, TreeNode.mk (some 1) "b" "/1/" [2] none])

/-! ## JSON envelope model

Python dicts modelled as association lists preserving insertion order:
`Dict.set` overwrites in place (keeping the key's position) or appends a new
key, exactly as `d[k] = v` does; `Dict.get?` is `d[k]` lookup. -/

abbrev Dict (α : Type) := List (String × α)

def Dict.set {α : Type} : Dict α → String → α → Dict α
  | [], k, v => [(k, v)]
  | (k₁, v₁) :: rest, k, v =>
    if k₁ = k then (k, v) :: rest else (k₁, v₁) :: Dict.set rest k v

def Dict.get? {α : Type} : Dict α → String → Option α
  | [], _ => none
  | (k₁, v₁) :: rest, k => if k₁ = k then some v₁ else Dict.get? rest k

/-- JSON-serializable values appearing in the response envelopes. -/
inductive JVal where
  | str : String → JVal
  | num : Nat → JVal
  | bool : Bool → JVal
  | null : JVal
deriving DecidableEq, Repr

/-- A persisted model object as the CRUD views see it: its identifier and
the result of `get_absolute_url()` (`none` models the method being absent,
i.e. the call raising `AttributeError`). -/
structure Obj where
  id : Nat
  url : Option String
deriving DecidableEq, Repr

/-- Django alias: `obj.pk` is `obj.id`. -/
def Obj.pk (o : Obj) : Nat := o.id

/-- A bound Django form: its validation outcome and the object `save()`
persists and returns. -/
structure Form where
  is_valid : Bool
  save : Obj
deriving DecidableEq, Repr

/-- Values living in a template-rendering context: strings (`qr_data`,
`error_msg`) or a form object inserted under the `form` key. -/
inductive CtxVal where
  | str : String → CtxVal
  | form : Form → CtxVal
deriving DecidableEq, Repr

/-! ## `AjaxMixin` -/

/-- Per-class state of the mixin: the configured title, template name, and
the `get_data()` extension hook's result (default implementation `{}`). -/
structure AjaxMixin where
  ajax_form_action : String := ""
  ajax_form_title : String := ""
  ajax_template_name : String := "modal_form.html"
  get_data : Dict JVal := []

/-- The module-level default argument dicts of `renderJsonResponse`
(`data={}, context={}`): evaluated once at definition time and shared,
mutated in place, by every call that omits the argument. -/
structure ModuleState where
  default_data : Dict JVal
  default_context : Dict CtxVal

/-- Fresh module state at import time: both defaults are empty dicts. -/
def ModuleState.init : ModuleState := ⟨[], []⟩

/-- One iteration of the `for key in fb.keys(): data[key] = fb[key]` merge
loop of `renderJsonResponse`. -/
def Dict.assignFrom {α : Type} (fb : Dict α) (d : Dict α) (key : String) :
    Dict α :=
  match Dict.get? fb key with
  | some v => Dict.set d key v
  | none => d

/-- `AjaxMixin.renderJsonResponse`. `render_to_string` is the external
template renderer. Mirrors the source: insert the form (if any) into the
context, set `data[title]`, render the template into `data[html_form]`,
then iterate the keys of `fb = get_data()` assigning each into `data`.
Returns the response dict (the mutated `data`) together with the mutated
`data` and `context`, which the caller aliases when defaults were used. -/
def renderJsonResponse (render_to_string : String → Dict CtxVal → String)
    (self : AjaxMixin) (form : Option Form)
    (data : Dict JVal) (context : Dict CtxVal) :
    Dict JVal × Dict JVal × Dict CtxVal :=
  let context := match form with
    | some f => Dict.set context "form" (CtxVal.form f)
    | none => context
  let data := Dict.set data "title" (JVal.str self.ajax_form_title)
  let data := Dict.set data "html_form"
    (JVal.str (render_to_string self.ajax_template_name context))
  let fb := self.get_data
  let data := (fb.map Prod.fst).foldl (Dict.assignFrom fb) data
  (data, data, context)

/-! ## The views built on the mixin -/

/-- `AjaxView.get`: `renderJsonResponse(request)` — omits `form`, `data` and
`context`, hence reads and mutates both module-level defaults. -/
def AjaxView.get (render_to_string : String → Dict CtxVal → String)
    (self : AjaxMixin) (st : ModuleState) : Dict JVal × ModuleState :=
  let (resp, d, c) :=
    renderJsonResponse render_to_string self none st.default_data st.default_context
  (resp, ⟨d, c⟩)

/-- `AjaxCreateView.get`: renders the initial form —
`renderJsonResponse(request, form)`, omitting `data` and `context`. -/
def AjaxCreateView.get (render_to_string : String → Dict CtxVal → String)
    (self : AjaxMixin) (form : Form) (st : ModuleState) :
    Dict JVal × ModuleState :=
  let (resp, d, c) :=
    renderJsonResponse render_to_string self (some form) st.default_data st.default_context
  (resp, ⟨d, c⟩)

/-- `AjaxCreateView.post`: builds the fresh envelope
`{form_valid: form.is_valid()}`; on valid, saves and records `pk`, then
tries `get_absolute_url` for `url`, passing on `AttributeError`; renders via
the mixin with the fresh `data` and the default `context`. -/
def AjaxCreateView.post (render_to_string : String → Dict CtxVal → String)
    (self : AjaxMixin) (form : Form) (st : ModuleState) :
    Dict JVal × ModuleState :=
  let data : Dict JVal := [("form_valid", JVal.bool form.is_valid)]
  let data :=
    if form.is_valid then
      let obj := form.save
      let data := Dict.set data "pk" (JVal.num obj.pk)
      match obj.url with
      | some u => Dict.set data "url" (JVal.str u)
      | none => data
    else data
  let (resp, _, c) :=
    renderJsonResponse render_to_string self (some form) data st.default_context
  (resp, { st with default_context := c })

/-- `AjaxUpdateView.post`: same shape as the create POST (the resolved
object is the one `form.save()` returns; the source reads `obj.id` where the
create view reads `obj.pk`). -/
def AjaxUpdateView.post (render_to_string : String → Dict CtxVal → String)
    (self : AjaxMixin) (form : Form) (st : ModuleState) :
    Dict JVal × ModuleState :=
  let data : Dict JVal := [("form_valid", JVal.bool form.is_valid)]
  let data :=
    if form.is_valid then
      let obj := form.save
      let data := Dict.set data "pk" (JVal.num obj.id)
      match obj.url with
      | some u => Dict.set data "url" (JVal.str u)
      | none => data
    else data
  let (resp, _, c) :=
    renderJsonResponse render_to_string self (some form) data st.default_context
  (resp, { st with default_context := c })

/-- `self.get_object()`: resolve the record addressed by the URL's pk from
the database; `none` is the ORM's not-found failure (HTTP 404). -/
def get_object (db : List Obj) (pk : Nat) : Option Obj :=
  db.find? (fun o => o.id = pk)

/-- `obj.delete()`: remove the record from the database. -/
def Obj.delete (db : List Obj) (obj : Obj) : List Obj :=
  db.filter (fun o => o.id ≠ obj.id)

/-- `AjaxDeleteView.post`: resolve the object, delete it unconditionally (no
branch inspects the request body), and render `{id: pk, delete: true}`
through the mixin, omitting `context`. Returns the response, the database
after deletion and the module state. -/
def AjaxDeleteView.post (render_to_string : String → Dict CtxVal → String)
    (self : AjaxMixin) (db : List Obj) (pk : Nat) (st : ModuleState) :
    Option (Dict JVal × List Obj × ModuleState) :=
  match get_object db pk with
  | none => none
  | some obj =>
    let pk := obj.id
    let db := Obj.delete db obj
    let data : Dict JVal := [("id", JVal.num pk), ("delete", JVal.bool true)]
    let (resp, _, c) :=
      renderJsonResponse render_to_string self none data st.default_context
    some (resp, db, { st with default_context := c })

/-! ## `QRCodeView` -/

/-- Python truthiness of the `get_qr_data()` result: `None` and the empty
string are falsy, a non-empty string is truthy. -/
def truthy : Option String → Bool
  | none => false
  | some s => decide (s ≠ "")

/-- `QRCodeView.get_context_data`: start from an empty context, ask the
subclass hook for the payload; if truthy bind it to `qr_data`, otherwise set
the fixed `error_msg`. -/
def QRCodeView.get_context_data (get_qr_data : Option String) : Dict CtxVal :=
  let context : Dict CtxVal := []
  match get_qr_data with
  | some qr =>
    if qr ≠ "" then Dict.set context "qr_data" (CtxVal.str qr)
    else Dict.set context "error_msg" (CtxVal.str "Error generating QR code")
  | none => Dict.set context "error_msg" (CtxVal.str "Error generating QR code")

/-! ## `IndexView`

The `Part` model lives in the external `part` application; it is opaque here
except for the two filter flags and the `need_to_restock()` predicate the
index view evaluates. (Namespaced because Mathlib already has a `Part`.) -/

namespace InvenTree

structure Part where
  purchaseable : Bool
  buildable : Bool
  need_to_restock : Bool
deriving DecidableEq, Repr

/-- Context values of the index page. -/
inductive IdxVal where
  | parts : List Part → IdxVal
deriving DecidableEq, Repr

/-- `IndexView.get_context_data`: `starred` from the user's starred parts;
`to_order` the purchaseable parts passing `need_to_restock()`; `to_build`
the buildable parts passing it — filtering evaluated per record in
application code. -/
def IndexView.get_context_data (starred_parts : List Part)
    (parts : List Part) : Dict IdxVal :=
  let context : Dict IdxVal := []
  let context := Dict.set context "starred" (IdxVal.parts starred_parts)
  let context := Dict.set context "to_order"
    (IdxVal.parts ((parts.filter (fun p => p.purchaseable)).filter
      (fun p => p.need_to_restock)))
  let context := Dict.set context "to_build"
    (IdxVal.parts ((parts.filter (fun p => p.buildable)).filter
      (fun p => p.need_to_restock)))
  context

end InvenTree

/-! ## Dictionary lemmas -/

theorem Dict.get?_set_self {α : Type} (d : Dict α) (k : String) (v : α) :
    Dict.get? (Dict.set d k v) k = some v := by
  induction d with
  | nil => simp [Dict.set, Dict.get?]
  | cons hd tl ih =>
    obtain ⟨k₁, v₁⟩ := hd
    by_cases h : k₁ = k <;> simp [Dict.set, Dict.get?, h, ih]

theorem Dict.get?_set_ne {α : Type} (d : Dict α) (k k' : String) (v : α)
    (h : k' ≠ k) : Dict.get? (Dict.set d k v) k' = Dict.get? d k' := by
  induction d with
  | nil => simp [Dict.set, Dict.get?, Ne.symm h]
  | cons hd tl ih =>
    obtain ⟨k₁, v₁⟩ := hd
    by_cases h₁ : k₁ = k
    · subst h₁
      simp [Dict.set, Dict.get?, Ne.symm h]
    · by_cases h₂ : k₁ = k' <;> simp [Dict.set, Dict.get?, h₁, h₂, ih, h]

theorem Dict.mem_keys_of_get?_eq_some {α : Type} {d : Dict α} {k : String}
    {v : α} (h : Dict.get? d k = some v) : k ∈ d.map Prod.fst := by
  induction d with
  | nil => simp [Dict.get?] at h
  | cons hd tl ih =>
    obtain ⟨k₁, v₁⟩ := hd
    by_cases h₁ : k₁ = k
    · simp [h₁]
    · simp only [Dict.get?, if_neg h₁] at h
      simp [ih h]

theorem Dict.not_mem_keys_of_get?_eq_none {α : Type} {d : Dict α} {k : String}
    (h : Dict.get? d k = none) : k ∉ d.map Prod.fst := by
  induction d with
  | nil => simp
  | cons hd tl ih =>
    obtain ⟨k₁, v₁⟩ := hd
    by_cases h₁ : k₁ = k
    · simp [Dict.get?, h₁] at h
    · simp only [Dict.get?, if_neg h₁] at h
      simp [ih h, Ne.symm h₁]

/-- The `for key in fb.keys(): data[key] = fb[key]` loop leaves keys outside
`ks` untouched. -/
theorem Dict.get?_mergeLoop_of_not_mem {α : Type} (fb : Dict α)
    (ks : List String) (d : Dict α) (k : String) (hk : k ∉ ks) :
    Dict.get? (ks.foldl (Dict.assignFrom fb) d) k = Dict.get? d k := by
  induction ks generalizing d with
  | nil => rfl
  | cons a t ih =>
    simp only [List.mem_cons, not_or] at hk
    obtain ⟨hka, hkt⟩ := hk
    simp only [List.foldl_cons]
    rw [ih _ hkt]
    unfold Dict.assignFrom
    cases hfa : Dict.get? fb a
    · rfl
    · exact Dict.get?_set_ne d a k _ hka

/-- The merge loop writes `fb`'s value for every key of `fb` it visits. -/
theorem Dict.get?_mergeLoop_of_get?_eq_some {α : Type} (fb : Dict α)
    (ks : List String) (d : Dict α) (k : String) (v : α) (hmem : k ∈ ks)
    (hget : Dict.get? fb k = some v) :
    Dict.get? (ks.foldl (Dict.assignFrom fb) d) k = some v := by
  induction ks generalizing d with
  | nil => simp at hmem
  | cons a t ih =>
    by_cases hkt : k ∈ t
    · simp only [List.foldl_cons]
      exact ih _ hkt
    · have hka : k = a := by
        rcases List.mem_cons.mp hmem with h | h
        · exact h
        · exact absurd h hkt
      subst hka
      simp only [List.foldl_cons]
      rw [Dict.get?_mergeLoop_of_not_mem fb t _ k hkt]
      unfold Dict.assignFrom
      rw [hget]
      exact Dict.get?_set_self d k v

/-! ## `renderJsonResponse` lemmas -/

/-- A key carried by `get_data()` ends up in the response with `get_data`'s
value, whatever the explicit `data` said (extension values win). -/
theorem renderJsonResponse_get?_of_get_data_some
    (render_to_string : String → Dict CtxVal → String) (self : AjaxMixin)
    (form : Option Form) (data : Dict JVal) (context : Dict CtxVal)
    (k : String) (v : JVal) (h : Dict.get? self.get_data k = some v) :
    Dict.get? (renderJsonResponse render_to_string self form data context).1 k
      = some v := by
  simp only [renderJsonResponse]
  exact Dict.get?_mergeLoop_of_get?_eq_some _ _ _ _ _
    (Dict.mem_keys_of_get?_eq_some h) h

/-- A key absent from `get_data()` and distinct from `title`/`html_form`
passes through from the explicit `data` unchanged. -/
theorem renderJsonResponse_get?_of_get_data_none
    (render_to_string : String → Dict CtxVal → String) (self : AjaxMixin)
    (form : Option Form) (data : Dict JVal) (context : Dict CtxVal)
    (k : String) (h : Dict.get? self.get_data k = none)
    (ht : k ≠ "title") (hh : k ≠ "html_form") :
    Dict.get? (renderJsonResponse render_to_string self form data context).1 k
      = Dict.get? data k := by
  simp only [renderJsonResponse]
  rw [Dict.get?_mergeLoop_of_not_mem _ _ _ _ (Dict.not_mem_keys_of_get?_eq_none h)]
  rw [Dict.get?_set_ne _ _ _ _ hh, Dict.get?_set_ne _ _ _ _ ht]

/-- The response always carries a `title` key. -/
theorem renderJsonResponse_title_isSome
    (render_to_string : String → Dict CtxVal → String) (self : AjaxMixin)
    (form : Option Form) (data : Dict JVal) (context : Dict CtxVal) :
    (Dict.get? (renderJsonResponse render_to_string self form data context).1
      "title").isSome = true := by
  cases hfb : Dict.get? self.get_data "title" with
  | some v => rw [renderJsonResponse_get?_of_get_data_some _ _ _ _ _ _ _ hfb]; rfl
  | none =>
    simp only [renderJsonResponse]
    rw [Dict.get?_mergeLoop_of_not_mem _ _ _ _ (Dict.not_mem_keys_of_get?_eq_none hfb)]
    rw [Dict.get?_set_ne _ _ _ _ (by decide), Dict.get?_set_self]
    rfl

/-- The response always carries an `html_form` key. -/
theorem renderJsonResponse_html_form_isSome
    (render_to_string : String → Dict CtxVal → String) (self : AjaxMixin)
    (form : Option Form) (data : Dict JVal) (context : Dict CtxVal) :
    (Dict.get? (renderJsonResponse render_to_string self form data context).1
      "html_form").isSome = true := by
  cases hfb : Dict.get? self.get_data "html_form" with
  | some v => rw [renderJsonResponse_get?_of_get_data_some _ _ _ _ _ _ _ hfb]; rfl
  | none =>
    simp only [renderJsonResponse]
    rw [Dict.get?_mergeLoop_of_not_mem _ _ _ _ (Dict.not_mem_keys_of_get?_eq_none hfb)]
    rw [Dict.get?_set_self]
    rfl

/-- The context returned by `renderJsonResponse` when a form is passed:
the input context with the form inserted under `form`. -/
theorem renderJsonResponse_context_some
    (render_to_string : String → Dict CtxVal → String) (self : AjaxMixin)
    (f : Form) (data : Dict JVal) (context : Dict CtxVal) :
    (renderJsonResponse render_to_string self (some f) data context).2.2
      = Dict.set context "form" (CtxVal.form f) := rfl

/-- The context is untouched when no form is passed. -/
theorem renderJsonResponse_context_none
    (render_to_string : String → Dict CtxVal → String) (self : AjaxMixin)
    (data : Dict JVal) (context : Dict CtxVal) :
    (renderJsonResponse render_to_string self none data context).2.2 = context := rfl

/-- The mutated `data` returned by `renderJsonResponse` is the response. -/
theorem renderJsonResponse_data_eq_response
    (render_to_string : String → Dict CtxVal → String) (self : AjaxMixin)
    (form : Option Form) (data : Dict JVal) (context : Dict CtxVal) :
    (renderJsonResponse render_to_string self form data context).2.1
      = (renderJsonResponse render_to_string self form data context).1 := rfl

/-- C8: in `AjaxMixin.renderJsonResponse` the `get_data()` extension mapping
is merged after `title` and `html_form` are set, by iterating its keys and
assigning each, so on every key collision the extension value wins —
including the ability to overwrite `title` and `html_form`. -/
theorem renderJsonResponse_extension_wins
    (render_to_string : String → Dict CtxVal → String) (self : AjaxMixin)
    (form : Option Form) (data : Dict JVal) (context : Dict CtxVal)
    (k : String) (v : JVal) (h : Dict.get? self.get_data k = some v) :
    Dict.get? (renderJsonResponse render_to_string self form data context).1 k
      = some v :=
  renderJsonResponse_get?_of_get_data_some render_to_string self form data
    context k v h

/-- Witness for C8: a `get_data()` carrying its own `title` overwrites the
explicit `title` in the rendered envelope. -/
theorem renderJsonResponse_extension_wins_witness :
    Dict.get? (AjaxMixin.mk "" "Ttl" "tpl" [("title", JVal.str "X")]).get_data
        "title" = some (JVal.str "X") ∧
    Dict.get? (renderJsonResponse (fun _ _ => "H")
        (AjaxMixin.mk "" "Ttl" "tpl" [("title", JVal.str "X")]) none [] []).1
        "title" = some (JVal.str "X") :=
  ⟨rfl, renderJsonResponse_extension_wins (fun _ _ => "H")
    (AjaxMixin.mk "" "Ttl" "tpl" [("title", JVal.str "X")]) none [] []
    "title" (JVal.str "X") rfl⟩

/-- C4: a create-view POST, for any form outcome, reports `form_valid` in
the envelope; when valid it carries `pk` equal to the saved object's
identifier, when invalid it carries no `pk` key (and returns normally). -/
theorem ajaxCreateView_post_envelope
    (render_to_string : String → Dict CtxVal → String) (self : AjaxMixin)
    (form : Form) (st : ModuleState)
    (hpk : Dict.get? self.get_data "pk" = none)
    (hfv : Dict.get? self.get_data "form_valid" = none) :
    Dict.get? (AjaxCreateView.post render_to_string self form st).1 "form_valid"
        = some (JVal.bool form.is_valid) ∧
    (form.is_valid = true →
      Dict.get? (AjaxCreateView.post render_to_string self form st).1 "pk"
        = some (JVal.num form.save.pk)) ∧
    (form.is_valid = false →
      Dict.get? (AjaxCreateView.post render_to_string self form st).1 "pk"
        = none) := by
  simp only [AjaxCreateView.post]
  rw [renderJsonResponse_get?_of_get_data_none _ _ _ _ _ _ hfv
      (by decide) (by decide),
    renderJsonResponse_get?_of_get_data_none _ _ _ _ _ _ hpk
      (by decide) (by decide)]
  cases hv : form.is_valid with
  | true =>
    cases hu : form.save.url with
    | none => simp [Dict.set, Dict.get?, Obj.pk]
    | some u => simp [Dict.set, Dict.get?, Obj.pk]
  | false => simp [Dict.set, Dict.get?]

/-- Witness for C4: a valid form with saved id 7 yields `form_valid:true`
and `pk:7`; an invalid form yields `form_valid:false` and no `pk`. -/
theorem ajaxCreateView_post_envelope_witness :
    Dict.get? (AjaxCreateView.post (fun _ _ => "H") (AjaxMixin.mk "" "T" "tpl" [])
        (Form.mk true (Obj.mk 7 none)) ModuleState.init).1 "pk"
      = some (JVal.num 7) ∧
    Dict.get? (AjaxCreateView.post (fun _ _ => "H") (AjaxMixin.mk "" "T" "tpl" [])
        (Form.mk false (Obj.mk 7 none)) ModuleState.init).1 "pk" = none :=
  ⟨(ajaxCreateView_post_envelope (fun _ _ => "H") (AjaxMixin.mk "" "T" "tpl" [])
      (Form.mk true (Obj.mk 7 none)) ModuleState.init rfl rfl).2.1 rfl,
   (ajaxCreateView_post_envelope (fun _ _ => "H") (AjaxMixin.mk "" "T" "tpl" [])
      (Form.mk false (Obj.mk 7 none)) ModuleState.init rfl rfl).2.2 rfl⟩

/-- C5: on a form-valid POST to the create or update view, when
`get_absolute_url` is absent (`AttributeError`) the `url` key is simply
omitted from the envelope; when the object exposes a URL, `url` carries it. -/
theorem ajax_post_url_key
    (render_to_string : String → Dict CtxVal → String) (self : AjaxMixin)
    (form : Form) (st : ModuleState)
    (hurl : Dict.get? self.get_data "url" = none)
    (hv : form.is_valid = true) :
    (form.save.url = none →
      Dict.get? (AjaxCreateView.post render_to_string self form st).1 "url"
          = none ∧
      Dict.get? (AjaxUpdateView.post render_to_string self form st).1 "url"
          = none) ∧
    (∀ u, form.save.url = some u →
      Dict.get? (AjaxCreateView.post render_to_string self form st).1 "url"
          = some (JVal.str u) ∧
      Dict.get? (AjaxUpdateView.post render_to_string self form st).1 "url"
          = some (JVal.str u)) := by
  simp only [AjaxCreateView.post, AjaxUpdateView.post]
  rw [renderJsonResponse_get?_of_get_data_none _ _ _ _ _ _ hurl
      (by decide) (by decide),
    renderJsonResponse_get?_of_get_data_none _ _ _ _ _ _ hurl
      (by decide) (by decide)]
  constructor
  · intro hu
    rw [hv, hu]
    simp [Dict.set, Dict.get?]
  · intro u hu
    rw [hv, hu]
    simp [Dict.set, Dict.get?]

/-- Witness for C5: with a URL the envelope carries it, without one the key
is absent, on both views. -/
theorem ajax_post_url_key_witness :
    Dict.get? (AjaxCreateView.post (fun _ _ => "H") (AjaxMixin.mk "" "T" "tpl" [])
        (Form.mk true (Obj.mk 3 (some "/part/3/"))) ModuleState.init).1 "url"
      = some (JVal.str "/part/3/") ∧
    Dict.get? (AjaxUpdateView.post (fun _ _ => "H") (AjaxMixin.mk "" "T" "tpl" [])
        (Form.mk true (Obj.mk 4 none)) ModuleState.init).1 "url" = none :=
  ⟨((ajax_post_url_key (fun _ _ => "H") (AjaxMixin.mk "" "T" "tpl" [])
      (Form.mk true (Obj.mk 3 (some "/part/3/"))) ModuleState.init rfl rfl).2
        "/part/3/" rfl).1,
   ((ajax_post_url_key (fun _ _ => "H") (AjaxMixin.mk "" "T" "tpl" [])
      (Form.mk true (Obj.mk 4 none)) ModuleState.init rfl rfl).1 rfl).2⟩

/-- C6 (amended): a POST to the delete view against an existing record
deletes it unconditionally (the only hypothesis is that the record resolves;
no confirmation input exists on the POST path) and the envelope carries
`id` equal to the deleted record's identifier and `delete: true` — but,
because the response goes through `renderJsonResponse`, it additionally
carries `title` and `html_form` keys, so it is not exactly `{id, delete}`. -/
theorem ajaxDeleteView_post_envelope
    (render_to_string : String → Dict CtxVal → String) (self : AjaxMixin)
    (db : List Obj) (pk : Nat) (st : ModuleState) (obj : Obj)
    (resp : Dict JVal) (db2 : List Obj) (st2 : ModuleState)
    (hobj : get_object db pk = some obj)
    (hid : Dict.get? self.get_data "id" = none)
    (hdel : Dict.get? self.get_data "delete" = none)
    (hres : AjaxDeleteView.post render_to_string self db pk st
      = some (resp, db2, st2)) :
    Dict.get? resp "id" = some (JVal.num obj.id) ∧
    Dict.get? resp "delete" = some (JVal.bool true) ∧
    (Dict.get? resp "title").isSome = true ∧
    (Dict.get? resp "html_form").isSome = true ∧
    db2 = db.filter (fun o => o.id ≠ obj.id) := by
  simp only [AjaxDeleteView.post, hobj, Option.some.injEq, Prod.mk.injEq] at hres
  obtain ⟨h1, h2, h3⟩ := hres
  subst h1
  subst h2
  refine ⟨?_, ?_, ?_, ?_, rfl⟩
  · rw [renderJsonResponse_get?_of_get_data_none _ _ _ _ _ _ hid
      (by decide) (by decide)]
    simp [Dict.set, Dict.get?]
  · rw [renderJsonResponse_get?_of_get_data_none _ _ _ _ _ _ hdel
      (by decide) (by decide)]
    simp [Dict.set, Dict.get?]
  · exact renderJsonResponse_title_isSome _ _ _ _ _
  · exact renderJsonResponse_html_form_isSome _ _ _ _ _

/-- Witness for C6 (amended): deleting record 5 from a one-record database
returns `id:5`, `delete:true` and empties the database. -/
theorem ajaxDeleteView_post_envelope_witness :
    get_object [Obj.mk 5 none] 5 = some (Obj.mk 5 none) ∧
    (AjaxDeleteView.post (fun _ _ => "H") (AjaxMixin.mk "" "T" "tpl" [])
        [Obj.mk 5 none] 5 ModuleState.init).isSome = true ∧
    ∀ r d s, AjaxDeleteView.post (fun _ _ => "H") (AjaxMixin.mk "" "T" "tpl" [])
        [Obj.mk 5 none] 5 ModuleState.init = some (r, d, s) →
      Dict.get? r "id" = some (JVal.num 5) ∧
      Dict.get? r "delete" = some (JVal.bool true) :=
  ⟨rfl, rfl, fun r d s hres =>
    ⟨(ajaxDeleteView_post_envelope (fun _ _ => "H") (AjaxMixin.mk "" "T" "tpl" [])
        [Obj.mk 5 none] 5 ModuleState.init (Obj.mk 5 none) r d s
        rfl rfl rfl hres).1,
     (ajaxDeleteView_post_envelope (fun _ _ => "H") (AjaxMixin.mk "" "T" "tpl" [])
        [Obj.mk 5 none] 5 ModuleState.init (Obj.mk 5 none) r d s
        rfl rfl rfl hres).2.1⟩⟩

/-- Counterexample for C6 as stated: the POST envelope of the delete view
does not carry exactly the keys `id` and `delete`; a concrete run shows it
also carries `title` and `html_form`. -/
theorem ajaxDeleteView_post_extra_keys :
    (AjaxDeleteView.post (fun _ _ => "H") (AjaxMixin.mk "" "T" "tpl" [])
        [Obj.mk 5 none] 5 ModuleState.init).map (fun r => r.1.map Prod.fst)
      = some ["id", "delete", "title", "html_form"] := rfl

/-- C7: the QR view's context selection — a truthy `get_qr_data()` result
yields `qr_data` and no `error_msg`; an absent or empty result yields
`error_msg` and no `qr_data`; `get_context_data` is total either way. -/
theorem qrCodeView_context_keys (qr : Option String) :
    (∀ s, qr = some s → s ≠ "" →
      Dict.get? (QRCodeView.get_context_data qr) "qr_data"
          = some (CtxVal.str s) ∧
      Dict.get? (QRCodeView.get_context_data qr) "error_msg" = none) ∧
    (truthy qr = false →
      Dict.get? (QRCodeView.get_context_data qr) "error_msg"
          = some (CtxVal.str "Error generating QR code") ∧
      Dict.get? (QRCodeView.get_context_data qr) "qr_data" = none) := by
  constructor
  · intro s hs hne
    subst hs
    simp [QRCodeView.get_context_data, Dict.set, Dict.get?, hne]
  · intro hf
    cases qr with
    | none => simp [QRCodeView.get_context_data, Dict.set, Dict.get?]
    | some s =>
      simp only [truthy, decide_eq_false_iff_not, not_not] at hf
      simp [QRCodeView.get_context_data, Dict.set, Dict.get?, hf]

/-- Witness for C7: a non-empty payload populates `qr_data` only; `none`
populates `error_msg` only. -/
theorem qrCodeView_context_keys_witness :
    Dict.get? (QRCodeView.get_context_data (some "INV-1")) "qr_data"
        = some (CtxVal.str "INV-1") ∧
    Dict.get? (QRCodeView.get_context_data (some "INV-1")) "error_msg" = none ∧
    Dict.get? (QRCodeView.get_context_data none) "error_msg"
        = some (CtxVal.str "Error generating QR code") ∧
    Dict.get? (QRCodeView.get_context_data none) "qr_data" = none :=
  ⟨((qrCodeView_context_keys (some "INV-1")).1 "INV-1" rfl (by decide)).1,
   ((qrCodeView_context_keys (some "INV-1")).1 "INV-1" rfl (by decide)).2,
   ((qrCodeView_context_keys none).2 rfl).1,
   ((qrCodeView_context_keys none).2 rfl).2⟩

/-- C9: the index page's `to_order` holds exactly the purchaseable parts
whose restock predicate holds, and `to_build` exactly the buildable parts
whose restock predicate holds. -/
theorem indexView_to_order_to_build (starred parts : List InvenTree.Part) :
    ∃ l b, Dict.get? (InvenTree.IndexView.get_context_data starred parts)
        "to_order" = some (InvenTree.IdxVal.parts l) ∧
      Dict.get? (InvenTree.IndexView.get_context_data starred parts)
        "to_build" = some (InvenTree.IdxVal.parts b) ∧
      (∀ p, p ∈ l ↔ p ∈ parts ∧ p.purchaseable = true ∧
        p.need_to_restock = true) ∧
      (∀ p, p ∈ b ↔ p ∈ parts ∧ p.buildable = true ∧
        p.need_to_restock = true) := by
  refine ⟨(parts.filter (fun p => p.purchaseable)).filter
      (fun p => p.need_to_restock),
    (parts.filter (fun p => p.buildable)).filter (fun p => p.need_to_restock),
    ?_, ?_, ?_, ?_⟩
  · simp [InvenTree.IndexView.get_context_data, Dict.set, Dict.get?]
  · simp [InvenTree.IndexView.get_context_data, Dict.set, Dict.get?]
  · intro p
    simp only [List.mem_filter, and_assoc]
  · intro p
    simp only [List.mem_filter, and_assoc]

/-- C10 (amended): `renderJsonResponse` mutates its `data`/`context`
arguments, and both default to module-level dicts shared by every call that
omits them. A `AjaxCreateView.get` (omitting `data` and `context`) leaves
the form in the shared default context; a later `AjaxView.get` on another
view instance, which passes no form, still renders with that form in its
context, and any key the first view's `get_data()` wrote into the shared
default data resurfaces in the later view's response. -/
theorem renderJsonResponse_default_dicts_shared
    (rts rts2 : String → Dict CtxVal → String) (self self2 : AjaxMixin)
    (form : Form) (st : ModuleState) (k : String) (v : JVal)
    (hk : Dict.get? self.get_data k = some v)
    (hk2 : Dict.get? self2.get_data k = none)
    (ht : k ≠ "title") (hh : k ≠ "html_form") :
    Dict.get? ((AjaxCreateView.get rts self form st).2).default_context "form"
        = some (CtxVal.form form) ∧
    Dict.get? ((AjaxView.get rts2 self2
        (AjaxCreateView.get rts self form st).2).2).default_context "form"
        = some (CtxVal.form form) ∧
    Dict.get? (AjaxView.get rts2 self2
        (AjaxCreateView.get rts self form st).2).1 k = some v := by
  have hctx : ((AjaxCreateView.get rts self form st).2).default_context
      = Dict.set st.default_context "form" (CtxVal.form form) := by
    simp only [AjaxCreateView.get]
    exact renderJsonResponse_context_some rts self form _ _
  have hform : Dict.get? ((AjaxCreateView.get rts self form st).2).default_context
      "form" = some (CtxVal.form form) := by
    rw [hctx]
    exact Dict.get?_set_self _ _ _
  refine ⟨hform, ?_, ?_⟩
  · simp only [AjaxView.get]
    rw [renderJsonResponse_context_none]
    exact hform
  · simp only [AjaxView.get]
    rw [renderJsonResponse_get?_of_get_data_none _ _ _ _ _ _ hk2 ht hh]
    have hdata : ((AjaxCreateView.get rts self form st).2).default_data
        = (renderJsonResponse rts self (some form) st.default_data
            st.default_context).1 := rfl
    rw [hdata]
    exact renderJsonResponse_get?_of_get_data_some rts self (some form) _ _ k v hk

/-- Witness for C10 (amended): a view whose `get_data()` injects `msg`
pollutes the shared default data; a later plain `AjaxView.get` of a view
that knows nothing of `msg` still emits it, and still sees the form in the
shared default context. -/
theorem renderJsonResponse_default_dicts_shared_witness :
    Dict.get? ((AjaxView.get (fun _ _ => "H2") (AjaxMixin.mk "" "T2" "t2" [])
        (AjaxCreateView.get (fun _ _ => "H") (AjaxMixin.mk "" "T" "tpl"
          [("msg", JVal.str "hi")]) (Form.mk true (Obj.mk 1 none))
          ModuleState.init).2).2).default_context "form"
      = some (CtxVal.form (Form.mk true (Obj.mk 1 none))) ∧
    Dict.get? (AjaxView.get (fun _ _ => "H2") (AjaxMixin.mk "" "T2" "t2" [])
        (AjaxCreateView.get (fun _ _ => "H") (AjaxMixin.mk "" "T" "tpl"
          [("msg", JVal.str "hi")]) (Form.mk true (Obj.mk 1 none))
          ModuleState.init).2).1 "msg" = some (JVal.str "hi") :=
  ⟨(renderJsonResponse_default_dicts_shared (fun _ _ => "H") (fun _ _ => "H2")
      (AjaxMixin.mk "" "T" "tpl" [("msg", JVal.str "hi")])
      (AjaxMixin.mk "" "T2" "t2" []) (Form.mk true (Obj.mk 1 none))
      ModuleState.init "msg" (JVal.str "hi") rfl rfl (by decide)
      (by decide)).2.1,
   (renderJsonResponse_default_dicts_shared (fun _ _ => "H") (fun _ _ => "H2")
      (AjaxMixin.mk "" "T" "tpl" [("msg", JVal.str "hi")])
      (AjaxMixin.mk "" "T2" "t2" []) (Form.mk true (Obj.mk 1 none))
      ModuleState.init "msg" (JVal.str "hi") rfl rfl (by decide)
      (by decide)).2.2⟩

/-- Counterexample for C10 as stated: `pk`/`url` are never "left in the
default data" — the POST handlers build a fresh literal dict for `data` —
so after a form-valid create POST (whose response does carry `pk` and
`url`) the shared default data dict is still empty. -/
theorem ajaxCreateView_post_default_data_unchanged :
    Dict.get? (AjaxCreateView.post (fun _ _ => "H") (AjaxMixin.mk "" "T" "tpl" [])
        (Form.mk true (Obj.mk 7 (some "/obj/7/"))) ModuleState.init).1 "pk"
      = some (JVal.num 7) ∧
    ((AjaxCreateView.post (fun _ _ => "H") (AjaxMixin.mk "" "T" "tpl" [])
        (Form.mk true (Obj.mk 7 (some "/obj/7/"))) ModuleState.init).2).default_data
      = [] :=
  ⟨rfl, rfl⟩

/-! ## Tree serializer lemmas -/

theorem charListLe_total (a : List Char) :
    ∀ b, charListLe a b = true ∨ charListLe b a = true := by
  induction a with
  | nil => intro b; left; rfl
  | cons x xs ih =>
    intro b
    cases b with
    | nil => right; rfl
    | cons y ys =>
      by_cases hxy : x < y
      · left; simp [charListLe, hxy]
      · by_cases heq : x = y
        · subst heq
          rcases ih ys with h | h
          · left; simp [charListLe, h]
          · right; simp [charListLe, h]
        · have hyx : y < x :=
            lt_of_le_of_ne (not_lt.mp hxy) (fun hc => heq hc.symm)
          right; simp [charListLe, hyx]

theorem charListLe_trans (a : List Char) :
    ∀ b c, charListLe a b = true → charListLe b c = true →
      charListLe a c = true := by
  induction a with
  | nil => intro b c _ _; rfl
  | cons x xs ih =>
    intro b c hab hbc
    cases b with
    | nil => simp [charListLe] at hab
    | cons y ys =>
      cases c with
      | nil => simp [charListLe] at hbc
      | cons z zs =>
        by_cases hxy : x < y
        · by_cases hyz : y < z
          · simp [charListLe, lt_trans hxy hyz]
          · by_cases hyz2 : y = z
            · subst hyz2; simp [charListLe, hxy]
            · simp [charListLe, hyz, hyz2] at hbc
        · by_cases hxy2 : x = y
          · subst hxy2
            simp only [charListLe, if_neg hxy, if_pos rfl] at hab
            by_cases hxz : x < z
            · simp [charListLe, hxz]
            · by_cases hxz2 : x = z
              · subst hxz2
                simp only [charListLe, if_neg hxz, if_pos rfl] at hbc ⊢
                exact ih ys zs hab hbc
              · simp [charListLe, hxz, hxz2] at hbc
          · simp [charListLe, hxy, hxy2] at hab

theorem strLe_total (a b : String) : strLe a b = true ∨ strLe b a = true :=
  charListLe_total a.data b.data

theorem strLe_trans (a b c : String) (hab : strLe a b = true)
    (hbc : strLe b c = true) : strLe a c = true :=
  charListLe_trans a.data b.data c.data hab hbc

theorem sortedStr_map_of_pairwise (l : List Record)
    (hl : List.Pairwise (fun a b => byName a b = true) l) :
    sortedStr (l.map Record.name) = true := by
  induction l with
  | nil => rfl
  | cons a t ih =>
    rcases List.pairwise_cons.mp hl with ⟨ha, ht⟩
    cases t with
    | nil => rfl
    | cons b t2 =>
      have h1 : byName a b = true := ha b (List.mem_cons_self b t2)
      simp only [List.map_cons, sortedStr, Bool.and_eq_true]
      refine ⟨h1, ?_⟩
      simpa using ih ht

theorem sortedStr_insertionSort (l : List Record) :
    sortedStr ((l.insertionSort (fun a b => byName a b = true)).map
      Record.name) = true := by
  haveI : IsTotal Record (fun a b => byName a b = true) :=
    ⟨fun a b => strLe_total a.name b.name⟩
  haveI : IsTrans Record (fun a b => byName a b = true) :=
    ⟨fun a b c => strLe_trans a.name b.name c.name⟩
  exact sortedStr_map_of_pairwise _ (List.sorted_insertionSort _ l)

theorem itemToJson_text (db : List Record) (fuel : Nat) (item : Record)
    (n : TreeNode) (h : itemToJson db fuel item = some n) :
    TreeNode.text n = item.name := by
  cases fuel with
  | zero => simp [itemToJson] at h
  | succ fuel =>
    simp only [itemToJson] at h
    split at h
    · split at h
      · cases h; rfl
      · cases h
    · cases h; rfl

theorem itemsToJsonWith_map_text (f : Record → Option TreeNode)
    (hf : ∀ r n, f r = some n → TreeNode.text n = r.name)
    (rs : List Record) (ns : List TreeNode)
    (h : itemsToJsonWith f rs = some ns) :
    ns.map TreeNode.text = rs.map Record.name := by
  induction rs generalizing ns with
  | nil => rw [itemsToJsonWith] at h; cases h; rfl
  | cons r t ih =>
    rw [itemsToJsonWith] at h
    split at h
    · cases h
      rename_i n2 ns2 hn hns
      simp only [List.map_cons, ih ns2 hns, List.cons.injEq, and_true]
      exact hf r n2 hn
    · cases h

theorem itemsToJsonWith_sorted (f : Record → Option TreeNode)
    (hf : ∀ r n, f r = some n → siblingsSorted n = true)
    (rs : List Record) (ns : List TreeNode)
    (h : itemsToJsonWith f rs = some ns) :
    siblingsSortedList ns = true := by
  induction rs generalizing ns with
  | nil => rw [itemsToJsonWith] at h; cases h; rfl
  | cons r t ih =>
    rw [itemsToJsonWith] at h
    split at h
    · cases h
      rename_i n2 ns2 hn hns
      simp only [siblingsSortedList, Bool.and_eq_true]
      exact ⟨hf r n2 hn, ih ns2 hns⟩
    · cases h

theorem itemToJson_sorted (db : List Record) (fuel : Nat) :
    ∀ item n, itemToJson db fuel item = some n → siblingsSorted n = true := by
  induction fuel with
  | zero =>
    intro item n h
    simp [itemToJson] at h
  | succ fuel ih =>
    intro item n h
    simp only [itemToJson] at h
    split at h
    · split at h
      · cases h
        rename_i hkids hns
        simp only [siblingsSorted, Bool.and_eq_true]
        constructor
        · rw [itemsToJsonWith_map_text (itemToJson db fuel)
            (itemToJson_text db fuel) _ _ hns]
          exact sortedStr_insertionSort _
        · exact itemsToJsonWith_sorted (itemToJson db fuel) ih _ _ hns
      · cases h
    · cases h
      rfl

/-- C1: every tree emitted by the Tree Serializer GET endpoint has its
siblings ordered ascending by name at every level — the top-level `nodes`
list of the synthetic root and every nested `nodes` list. -/
theorem treeSerializer_get_sorted (self : TreeSerializer) (fuel : Nat)
    (db : List Record) (top : TreeNode)
    (h : TreeSerializer.get self fuel db = some [("tree", [top])]) :
    siblingsSorted top = true := by
  simp only [TreeSerializer.get] at h
  split at h
  · cases h
  · rename_i nodes hns
    simp only [Option.some.injEq, List.cons.injEq, Prod.mk.injEq, and_true,
      true_and] at h
    subst h
    simp only [siblingsSorted, Bool.and_eq_true]
    unfold itemsToJson at hns
    constructor
    · rw [itemsToJsonWith_map_text (itemToJson db fuel)
        (itemToJson_text db fuel) _ _ hns]
      exact sortedStr_insertionSort _
    · exact itemsToJsonWith_sorted (itemToJson db fuel)
        (itemToJson_sorted db fuel) _ _ hns

/-- Witness for C1: on the example database the endpoint emits "a" before
"b" at the top and "c" before "z" below, and the tree passes the
sortedness check. -/
theorem treeSerializer_get_sorted_witness :
    TreeSerializer.get ⟨"Parts", "#"⟩ 3 dbEx = some [("tree", [topEx])] ∧
    siblingsSorted topEx = true :=
  ⟨rfl, treeSerializer_get_sorted ⟨"Parts", "#"⟩ 3 dbEx topEx rfl⟩

/-- C2: a serialized node carries a `nodes` key iff the record has at least
one child; a childless record's node has no `nodes` key at all. -/
theorem itemToJson_nodes_key (db : List Record) (fuel : Nat) (item : Record)
    (node : TreeNode) (h : itemToJson db fuel item = some node) :
    (TreeNode.nodes node ≠ none ↔
      db.filter (fun r => r.parent = some item.id) ≠ []) ∧
    (db.filter (fun r => r.parent = some item.id) = [] →
      TreeNode.nodes node = none) := by
  cases fuel with
  | zero => simp [itemToJson] at h
  | succ fuel =>
    simp only [itemToJson] at h
    split at h
    · rename_i hc
      split at h
      · cases h
        simp only [has_children, decide_eq_true_eq] at hc
        simp only [TreeNode.nodes]
        refine ⟨?_, fun hnil => absurd hnil hc⟩
        simp [hc]
      · cases h
    · rename_i hc
      simp only [has_children, decide_eq_true_eq, Bool.not_eq_true,
        decide_eq_false_iff_not, not_not] at hc
      cases h
      simp only [TreeNode.nodes]
      refine ⟨?_, fun _ => trivial⟩
      simp [hc]

/-- Witness for C2: record "a" of the example database has two children and
its node carries `nodes`; record "b" is childless and its node has none. -/
theorem itemToJson_nodes_key_witness :
    itemToJson dbEx 3 recA = some nodeAEx ∧
    (TreeNode.nodes nodeAEx ≠ none ↔
      dbEx.filter (fun r => r.parent = some recA.id) ≠ []) ∧
    (TreeNode.nodes nodeAEx ≠ none) ∧
    itemToJson dbEx 3 recB
      = some (TreeNode.mk (some 1) "b" "/1/" [2] none) ∧
    TreeNode.nodes (TreeNode.mk (some 1) "b" "/1/" [2] none) = none :=
  ⟨rfl, (itemToJson_nodes_key dbEx 3 recA nodeAEx rfl).1,
    by simp [nodeAEx, TreeNode.nodes], rfl,
    (itemToJson_nodes_key dbEx 3 recB
      (TreeNode.mk (some 1) "b" "/1/" [2] none) rfl).2 rfl⟩

/-- The `top_count` accumulation loop is the sum of the counts. -/
theorem foldl_add_stock (l : List Record) (acc : Nat) :
    l.foldl (fun acc item => acc + item.stock_item_count) acc
      = acc + (l.map Record.stock_item_count).sum := by
  induction l generalizing acc with
  | nil => simp
  | cons a t ih => simp [ih, Nat.add_assoc]

/-- Sorting the top-level records does not change the summed counts. -/
theorem sum_map_insertionSort (l : List Record) :
    ((l.insertionSort (fun a b => byName a b = true)).map
      Record.stock_item_count).sum
      = (l.map Record.stock_item_count).sum :=
  List.Perm.sum_eq (List.Perm.map _ (List.perm_insertionSort _ l))

/-- C3: the synthetic root wrapper has `pk = null` and `tags[0]` equal to
the sum of `stock_item_count` over exactly the top-level records (those with
a null parent), not over the full tree of descendants. -/
theorem treeSerializer_get_root (self : TreeSerializer) (fuel : Nat)
    (db : List Record) (top : TreeNode)
    (h : TreeSerializer.get self fuel db = some [("tree", [top])]) :
    TreeNode.pk top = none ∧
    TreeNode.tags top
      = [((db.filter (fun r => r.parent = none)).map
          Record.stock_item_count).sum] := by
  simp only [TreeSerializer.get] at h
  split at h
  · cases h
  · rename_i nodes hns
    simp only [Option.some.injEq, List.cons.injEq, Prod.mk.injEq, and_true,
      true_and] at h
    subst h
    refine ⟨rfl, ?_⟩
    simp only [TreeNode.tags, foldl_add_stock, Nat.zero_add,
      sum_map_insertionSort]

/-- Witness for C3: on the example database the root has `pk = null` and
`tags[0] = 5`, the sum over the two top-level records (2 + 3), not the
full-tree sum (2 + 3 + 5 + 1 = 11). -/
theorem treeSerializer_get_root_witness :
    (TreeNode.pk topEx = none ∧
      TreeNode.tags topEx
        = [((dbEx.filter (fun r => r.parent = none)).map
            Record.stock_item_count).sum]) ∧
    TreeNode.tags topEx = [5] :=
  ⟨treeSerializer_get_root ⟨"Parts", "#"⟩ 3 dbEx topEx rfl, rfl⟩
